import Mathlib

/-!
Shallow embedding of the simulation core of the repository
`learningGamesInRust`: the component data model (`components.rs`) and the
four per-frame systems Keyboard (`systems/keyboard.rs`), AI
(`systems/ai.rs`), Movement (`systems/movement.rs`) and Animator
(`systems/animator.rs`).

Modelling conventions:
* time is modelled by absolute instants and durations in abstract integer
  units; a system run receives the current instant `now` (the code calls
  `Instant::now()`); `t.elapsed()` becomes `now - t` on `Nat`;
* `rand::thread_rng` draws are modelled by a stream `draws : Nat → Nat`
  consumed in iteration order;
* `i32` is modelled as `Int` and `usize`/`u32` as `Nat`; Rust `/` on `i32`
  truncates toward zero, which is `Int.tdiv`;
* `Arc<Vec<Frame>>` is modelled as `List Frame`: Rust `PartialEq` on `Arc`
  compares the inner vectors element-wise, so `Arc` equality is content
  equality;
* a component storage is a map `Nat → Option α` over entity ids, and the
  set of alive entities is a list (its order is the join iteration order);
* a step that panics in the source (vector index out of bounds, modulo by
  zero) returns `none`.
-/

inductive Direction where
  | up
  | down
  | left
  | right
deriving DecidableEq, Fintype

structure Point where
  x : Int
  y : Int
deriving DecidableEq

def Point.add (p q : Point) : Point := ⟨p.x + q.x, p.y + q.y⟩

def Point.scale (p : Point) (k : Int) : Point := ⟨p.x * k, p.y * k⟩

/-- Modelled from the spec: `direction.rs` is not among the available
sources. Per the spec, Movement re-centers the bounding box at
old center + direction unit vector * displacement, so `into_point`
yields the axis-aligned unit vector of a direction (screen coordinates:
up is negative y, matching the goal being spawned at negative y in
`main.rs`). -/
def Direction.into_point : Direction → Point
  | .up => ⟨0, -1⟩
  | .down => ⟨0, 1⟩
  | .left => ⟨-1, 0⟩
  | .right => ⟨1, 0⟩

/-- Model of `sdl2::rect::Rect`: x, y are the top-left corner (i32),
w, h the width and height (u32). -/
structure Rect where
  x : Int
  y : Int
  w : Nat
  h : Nat
deriving DecidableEq

/-- Model of `sdl2` `Rect::center`: `(x + w / 2, y + h / 2)` with integer
division. -/
def Rect.center (r : Rect) : Point := ⟨r.x + (r.w / 2 : Nat), r.y + (r.h / 2 : Nat)⟩

/-- Model of `sdl2` `Rect::from_center`: top-left corner at
`(cx - w / 2, cy - h / 2)`. -/
def Rect.from_center (c : Point) (w h : Nat) : Rect :=
  ⟨c.x - (w / 2 : Nat), c.y - (h / 2 : Nat), w, h⟩

/-- Model of `sdl2` `Rect::offset`: translate the top-left corner. -/
def Rect.offset (r : Rect) (dx dy : Int) : Rect := { r with x := r.x + dx, y := r.y + dy }

/-- Model of `sdl2` `Rect::width` (u32). -/
def Rect.width (r : Rect) : Nat := r.w

/-- Model of `sdl2` `Rect::height` (u32). -/
def Rect.height (r : Rect) : Nat := r.h

/-- `components.rs`: `Sprite { texture_id: usize, region: Rect }`. -/
structure Sprite where
  texture_id : Nat
  region : Rect
deriving DecidableEq

/-- `components.rs`: `Frame { sprite: Sprite, duration: Duration }`. -/
structure Frame where
  sprite : Sprite
  duration : Nat
deriving DecidableEq

/-- `components.rs`: `Animation { frames: Arc<Vec<Frame>>, current_frame:
usize, frame_timer: Instant }`. The `frames` field is the shared frame
sequence; `Arc` equality is element-wise content equality of the inner
vectors, so it is modelled as a plain list. -/
structure Animation where
  frames : List Frame
  current_frame : Nat
  frame_timer : Nat
deriving DecidableEq

/-- `components.rs`: `MovementAnimations`, one `Animation` template per
direction. -/
structure MovementAnimations where
  walking_up : Animation
  walking_down : Animation
  walking_left : Animation
  walking_right : Animation
deriving DecidableEq

/-- `components.rs`: `MovementAnimations::standard_walking_animations`.
The spritesheet has 4 rows of `frames_length` frames ordered walking
down, left, right, up; frame `i` of row `row` is `top_left_frame` offset
by `(i * width, row * height)`; every frame lasts `step_delay`; every
template starts at `current_frame = 0` with `frame_timer` set to the
construction instant `now` (`Instant::now()` in the source). -/
def MovementAnimations.standard_walking_animations
    (texture_id : Nat) (top_left_frame : Rect) (frames_length : Nat)
    (step_delay : Nat) (now : Nat) : MovementAnimations :=
  let animation := fun (row : Int) =>
    Animation.mk
      ((List.range frames_length).map (fun frame =>
        { sprite := { texture_id := texture_id,
                      region := top_left_frame.offset
                        (frame * (top_left_frame.width : Int))
                        (row * (top_left_frame.height : Int)) },
          duration := step_delay }))
      0 now
  { walking_up := animation 3
    walking_down := animation 0
    walking_left := animation 1
    walking_right := animation 2 }

/-- `components.rs`: `MovementAnimations::animation_for`. -/
def MovementAnimations.animation_for (ma : MovementAnimations) : Direction → Animation
  | .up => ma.walking_up
  | .down => ma.walking_down
  | .left => ma.walking_left
  | .right => ma.walking_right

/-- `components.rs`: `Velocity { speed: i32, direction: Direction }`. -/
structure Velocity where
  speed : Int
  direction : Direction
deriving DecidableEq

/-- `components.rs`: `Player { movement_speed: i32 }`. -/
structure Player where
  movement_speed : Int
deriving DecidableEq

/-- `components.rs`: `Enemy { direction_timer: Instant,
direction_change_delay: Duration }`. -/
structure Enemy where
  direction_timer : Nat
  direction_change_delay : Nat
deriving DecidableEq

/-- Modelled from the spec: `resources.rs` is not among the available
sources. The `KeyboardEvent` resource per the spec is one of
`MoveInDirection(dir)`, `Stop`, `Escape`. -/
inductive KeyboardEvent where
  | MoveInDirection (d : Direction)
  | Stop
  | Escape
deriving DecidableEq

/-- The entity-component world: the list of alive entity ids (in join
iteration order) and one storage per component kind, exactly the kinds of
`components.rs`. `BoundingBox` is a newtype of `Rect` in the source and is
stored here directly as a `Rect`. -/
structure World where
  entities : List Nat
  players : Nat → Option Player
  enemies : Nat → Option Enemy
  velocities : Nat → Option Velocity
  bounding_boxes : Nat → Option Rect
  sprites : Nat → Option Sprite
  animations : Nat → Option Animation
  movement_animations : Nat → Option MovementAnimations

/-- Write one slot of a component storage (`WriteStorage::insert` with
`some`, `WriteStorage::remove` with `none`). -/
def setStore {α : Type} (s : Nat → Option α) (e : Nat) (v : Option α) : Nat → Option α :=
  fun x => if x = e then v else s x

/-- A join loop that visits each entity of `es` once and rewrites that
entity's slot of a single storage as a function of its previous value. -/
def pointwiseFold {α : Type} (f : Nat → Option α → Option α)
    (es : List Nat) (s : Nat → Option α) : Nat → Option α :=
  es.foldl (fun acc x => setStore acc x (f x (acc x))) s

/-- `keyboard.rs`, body of `Keyboard::run` for one `(Player, Velocity)`
pair: `MoveInDirection(d)` sets the velocity to the player's
`movement_speed` and `d`; `Stop` zeroes the speed and keeps the
direction; no event changes nothing. `Escape` never reaches the
dispatcher (the driving loop in `main.rs` exits before dispatching), so
it changes nothing. -/
def keyboardEntityVel (ev : Option KeyboardEvent) (p : Player) (v : Velocity) : Velocity :=
  match ev with
  | some (.MoveInDirection d) => { speed := p.movement_speed, direction := d }
  | some .Stop => { v with speed := 0 }
  | some .Escape => v
  | none => v

/-- `keyboard.rs`, the per-entity update seen by the join: entities
holding both `Player` and `Velocity` get `keyboardEntityVel`, everything
else is untouched. -/
def kbApply (ev : Option KeyboardEvent) (po : Option Player) (vo : Option Velocity) :
    Option Velocity :=
  match po, vo with
  | some p, some v => some (keyboardEntityVel ev p v)
  | _, _ => vo

/-- `keyboard.rs`: `Keyboard::run`, a join over `(Player, Velocity)`
mutating only the `Velocity` storage. -/
def Keyboard.run (ev : Option KeyboardEvent) (w : World) : World :=
  { w with velocities :=
      pointwiseFold (fun e vo => kbApply ev (w.players e) vo) w.entities w.velocities }

/-- `ai.rs`: resolution of one uniform draw in [1,100]:
1–60 keep the current direction, 61–70 Up, 71–80 Down, 81–90 Left,
91–100 Right. A draw outside [1,100] is `unreachable!` in the source
(`gen_range(1..101)` only yields 1..=100). -/
def newDirection (old : Direction) (draw : Nat) : Direction :=
  if 1 ≤ draw ∧ draw ≤ 60 then old
  else if 61 ≤ draw ∧ draw ≤ 70 then .up
  else if 71 ≤ draw ∧ draw ≤ 80 then .down
  else if 81 ≤ draw ∧ draw ≤ 90 then .left
  else if 91 ≤ draw ∧ draw ≤ 100 then .right
  else old

/-- `ai.rs`, body of `AI::run` for one `(Enemy, Velocity)` pair, threading
the `(enemies, velocities, draws consumed)` accumulator: when the
direction timer has accumulated at least `direction_change_delay`, draw
the next random number, resolve the new direction and reset the timer to
now; otherwise leave both components and the random stream untouched. -/
def aiStep (draws : Nat → Nat) (now : Nat)
    (acc : (Nat → Option Enemy) × (Nat → Option Velocity) × Nat) (e : Nat) :
    (Nat → Option Enemy) × (Nat → Option Velocity) × Nat :=
  match acc.1 e, acc.2.1 e with
  | some en, some v =>
    if en.direction_change_delay ≤ now - en.direction_timer then
      (setStore acc.1 e (some { en with direction_timer := now }),
       setStore acc.2.1 e (some { v with direction := newDirection v.direction (draws acc.2.2) }),
       acc.2.2 + 1)
    else acc
  | _, _ => acc

/-- `ai.rs`: `AI::run`, a join over `(Enemy, Velocity)` with write access
to both, consuming the random stream in iteration order. -/
def AI.run (draws : Nat → Nat) (now : Nat) (w : World) : World :=
  let acc := w.entities.foldl (aiStep draws now) (w.enemies, w.velocities, 0)
  { w with enemies := acc.1, velocities := acc.2.1 }

/-- `movement.rs`, body of `Movement::run` for one moving entity:
`distance = speed * time_elapsed.as_micros() as i32 / 1_000_000`
(truncating i32 division), and the box is rebuilt from its old center
displaced by the direction unit vector times the distance, keeping width
and height. -/
def moveBox (time_delta_micros : Nat) (v : Velocity) (b : Rect) : Rect :=
  let distance := (v.speed * (time_delta_micros : Int)).tdiv 1000000
  let new_pos := b.center.add (v.direction.into_point.scale distance)
  Rect.from_center new_pos b.width b.height

/-- `movement.rs`: `Movement::run`, a join over `(Velocity, BoundingBox)`
mutating only the boxes; entities with `speed == 0` are skipped by the
`continue`. The commented-out world-bounds check of the source is inert
and not modelled. -/
def Movement.run (time_delta_micros : Nat) (w : World) : World :=
  { w with bounding_boxes :=
      pointwiseFold (fun e bo =>
        match w.velocities e, bo with
        | some v, some b => if v.speed = 0 then some b else some (moveBox time_delta_micros v b)
        | _, _ => bo) w.entities w.bounding_boxes }

/-- `animator.rs`, first loop of `Animator::run` for one entity of the
`(entities, Velocity, MovementAnimations)` join, acting on the
`Animation` storage slot of that entity: a stationary entity that has an
animation gets it removed; otherwise, when the current frames differ from
the direction template's frames (or there is no animation yet), the slot
is overwritten with a clone of the template. Note that at `speed == 0`
with no animation present the code falls through and inserts one. -/
def Animator.updateAnimation (w : World) (e : Nat) (ao : Option Animation) : Option Animation :=
  match w.velocities e, w.movement_animations e with
  | some v, some ma =>
    if v.speed = 0 ∧ ao.isSome then none
    else
      let dir_anim := ma.animation_for v.direction
      match ao with
      | some a => if a.frames = dir_anim.frames then ao else some dir_anim
      | none => some dir_anim
  | _, _ => ao

/-- `animator.rs`: the whole first loop of `Animator::run`. -/
def Animator.updateAll (w : World) : Nat → Option Animation :=
  pointwiseFold (Animator.updateAnimation w) w.entities w.animations

/-- `animator.rs`, body of the second loop of `Animator::run` for one
`(Animation, Sprite)` pair: when the time elapsed since the frame timer
is at least the current frame's duration, advance the frame index by one
modulo the sequence length, reset the timer to now and overwrite the
sprite with the new frame's sprite. The source indexes
`anim.frames[anim.current_frame]` and takes `% anim.frames.len()`, which
panic on an out-of-range index or an empty sequence: those cases are
`none`. -/
def Animator.frameAdvance (now : Nat) (a : Animation) (s : Sprite) :
    Option (Animation × Sprite) :=
  match a.frames.get? a.current_frame with
  | none => none
  | some fr =>
    if fr.duration ≤ now - a.frame_timer then
      let cf := (a.current_frame + 1) % a.frames.length
      match a.frames.get? cf with
      | none => none
      | some fr2 => some ({ a with current_frame := cf, frame_timer := now }, fr2.sprite)
    else some (a, s)

/-- `animator.rs`, second loop: one entity of the `(Animation, Sprite)`
join. -/
def Animator.advanceStep (now : Nat)
    (p : (Nat → Option Animation) × (Nat → Option Sprite)) (e : Nat) :
    Option ((Nat → Option Animation) × (Nat → Option Sprite)) :=
  match p.1 e, p.2 e with
  | some a, some s =>
    match Animator.frameAdvance now a s with
    | none => none
    | some q => some (setStore p.1 e (some q.1), setStore p.2 e (some q.2))
  | _, _ => some p

/-- `animator.rs`, the whole second loop of `Animator::run`, propagating a
panic as `none`. -/
def Animator.advanceList (now : Nat) (es : List Nat)
    (p : (Nat → Option Animation) × (Nat → Option Sprite)) :
    Option ((Nat → Option Animation) × (Nat → Option Sprite)) :=
  match es with
  | [] => some p
  | x :: xs =>
    match Animator.advanceStep now p x with
    | none => none
    | some p2 => Animator.advanceList now xs p2

/-- `animator.rs`: `Animator::run`, the first loop followed by the
second. -/
def Animator.run (now : Nat) (w : World) : Option World :=
  match Animator.advanceList now w.entities (Animator.updateAll w, w.sprites) with
  | none => none
  | some p => some { w with animations := p.1, sprites := p.2 }

/-- `main.rs`: the four in-scope dispatched systems. -/
inductive Sys where
  | keyboard
  | ai
  | movement
  | animator
deriving DecidableEq, Fintype

/-- Run one system on the world, with this frame's fixed resources:
keyboard event, random stream, current instant and time delta. -/
def applySys (ev : Option KeyboardEvent) (draws : Nat → Nat) (now : Nat)
    (time_delta_micros : Nat) : Sys → World → Option World
  | .keyboard, w => some (Keyboard.run ev w)
  | .ai, w => some (AI.run draws now w)
  | .movement, w => some (Movement.run time_delta_micros w)
  | .animator, w => Animator.run now w

/-- Run a sequence of systems left to right, propagating a panic. -/
def runSeq (ev : Option KeyboardEvent) (draws : Nat → Nat) (now : Nat)
    (time_delta_micros : Nat) : List Sys → World → Option World
  | [], w => some w
  | s :: rest, w =>
    match applySys ev draws now time_delta_micros s w with
    | none => none
    | some w2 => runSeq ev draws now time_delta_micros rest w2

/-- `main.rs` dependency edges restricted to the four in-scope systems:
Keyboard and AI have no predecessors, Movement and Animator each depend
on both Keyboard and AI. An order is admissible when it runs each of the
four systems exactly once and respects those edges. -/
def respectsEdges (o : List Sys) : Bool :=
  o.length == 4 && o.contains .keyboard && o.contains .ai &&
    o.contains .movement && o.contains .animator &&
    decide (o.indexOf .keyboard < o.indexOf .movement) &&
    decide (o.indexOf .ai < o.indexOf .movement) &&
    decide (o.indexOf .keyboard < o.indexOf .animator) &&
    decide (o.indexOf .ai < o.indexOf .animator)

/-- The canonical sequential order of the spec. -/
def canonicalOrder : List Sys := [.keyboard, .ai, .movement, .animator]

/-- The four orders of the four systems admissible under the edges. -/
def validOrders : List (List Sys) :=
  [[.keyboard, .ai, .movement, .animator],
   [.ai, .keyboard, .movement, .animator],
   [.keyboard, .ai, .animator, .movement],
   [.ai, .keyboard, .animator, .movement]]

theorem setStore_same {α : Type} (s : Nat → Option α) (e : Nat) (v : Option α) :
    setStore s e v e = v := by
  simp [setStore]

theorem setStore_other {α : Type} (s : Nat → Option α) (e x : Nat) (v : Option α)
    (h : x ≠ e) : setStore s e v x = s x := by
  simp [setStore, h]

theorem pointwiseFold_eval {α : Type} (f : Nat → Option α → Option α)
    (es : List Nat) (s : Nat → Option α) (e : Nat) (hnd : es.Nodup) :
    pointwiseFold f es s e = if e ∈ es then f e (s e) else s e := by
  induction es generalizing s with
  | nil => simp [pointwiseFold]
  | cons x xs ih =>
    rcases List.nodup_cons.mp hnd with ⟨hx, hxs⟩
    have hstep : pointwiseFold f (x :: xs) s
        = pointwiseFold f xs (setStore s x (f x (s x))) := rfl
    rw [hstep, ih _ hxs]
    by_cases hex : e = x
    · subst hex
      simp [hx, setStore]
    · have hso : setStore s x (f x (s x)) e = s e := setStore_other _ _ _ _ hex
      by_cases hmem : e ∈ xs
      · simp [hmem, List.mem_cons, hso]
      · have hnotc : ¬ e ∈ x :: xs := by simp [hex, hmem]
        simp [hmem, hnotc, hso]

theorem frameAdvance_isSome (now : Nat) (a : Animation) (s : Sprite)
    (h : a.current_frame < a.frames.length) :
    (Animator.frameAdvance now a s).isSome := by
  rcases hfr : a.frames.get? a.current_frame with _ | fr
  · exact absurd (List.get?_eq_none.mp hfr) (by omega)
  · rw [Animator.frameAdvance, hfr]
    by_cases hd : fr.duration ≤ now - a.frame_timer
    · rcases hfr2 : a.frames.get? ((a.current_frame + 1) % a.frames.length) with _ | fr2
      · have h1 := List.get?_eq_none.mp hfr2
        have hlen : 0 < a.frames.length := by omega
        have h2 := Nat.mod_lt (a.current_frame + 1) hlen
        omega
      · simp [hd, ← List.get?_eq_getElem?, hfr2]
    · simp [hd]

theorem frameAdvance_spec (now : Nat) (a : Animation) (s : Sprite) (fr : Frame)
    (hfr : a.frames.get? a.current_frame = some fr) :
    (fr.duration ≤ now - a.frame_timer →
      ∃ fr2, a.frames.get? ((a.current_frame + 1) % a.frames.length) = some fr2 ∧
        Animator.frameAdvance now a s =
          some ({ a with current_frame := (a.current_frame + 1) % a.frames.length,
                         frame_timer := now }, fr2.sprite)) ∧
    (now - a.frame_timer < fr.duration →
      Animator.frameAdvance now a s = some (a, s)) := by
  constructor
  · intro hd
    have hcf : a.current_frame < a.frames.length := by
      by_contra hge
      rw [List.get?_eq_none.mpr (by omega)] at hfr
      exact Option.noConfusion hfr
    have hlen : 0 < a.frames.length := by omega
    rcases hfr2 : a.frames.get? ((a.current_frame + 1) % a.frames.length) with _ | fr2
    · have h1 := List.get?_eq_none.mp hfr2
      have h2 := Nat.mod_lt (a.current_frame + 1) hlen
      omega
    · refine ⟨fr2, rfl, ?_⟩
      rw [Animator.frameAdvance, hfr]
      simp [hd, ← List.get?_eq_getElem?, hfr2]
  · intro hd
    rw [Animator.frameAdvance, hfr]
    simp [Nat.not_le.mpr hd]

theorem advanceList_some_eval (now : Nat) :
    ∀ (es : List Nat) (A : Nat → Option Animation) (S : Nat → Option Sprite)
      (A2 : Nat → Option Animation) (S2 : Nat → Option Sprite),
      es.Nodup →
      Animator.advanceList now es (A, S) = some (A2, S2) →
      ∀ e, (e ∈ es →
              match A e, S e with
              | some a, some s => ∃ q, Animator.frameAdvance now a s = some q ∧
                  A2 e = some q.1 ∧ S2 e = some q.2
              | _, _ => A2 e = A e ∧ S2 e = S e) ∧
           (e ∉ es → A2 e = A e ∧ S2 e = S e) := by
  intro es
  induction es with
  | nil =>
    intro A S A2 S2 _ hrun e
    rw [Animator.advanceList] at hrun
    injection hrun with hp
    injection hp with h1 h2
    subst h1; subst h2
    exact ⟨fun hmem => absurd hmem (List.not_mem_nil e), fun _ => ⟨rfl, rfl⟩⟩
  | cons x xs ih =>
    intro A S A2 S2 hnd hrun e
    rcases List.nodup_cons.mp hnd with ⟨hx, hxs⟩
    rw [Animator.advanceList] at hrun
    rcases hA : A x with _ | a <;> rcases hS : S x with _ | s <;>
      rw [Animator.advanceStep] at hrun <;> simp only [hA, hS] at hrun
    · -- A x = none, S x = none
      have h := ih A S A2 S2 hxs hrun e
      constructor
      · intro hmem
        rcases List.mem_cons.mp hmem with he | he
        · subst he
          have h2 := h.2 hx
          simp only [hA, hS] at h2 ⊢
          exact h2
        · exact h.1 he
      · intro hmem
        exact h.2 (fun hm => hmem (List.mem_cons_of_mem x hm))
    · -- A x = none, S x = some s
      have h := ih A S A2 S2 hxs hrun e
      constructor
      · intro hmem
        rcases List.mem_cons.mp hmem with he | he
        · subst he
          have h2 := h.2 hx
          simp only [hA, hS] at h2 ⊢
          exact h2
        · exact h.1 he
      · intro hmem
        exact h.2 (fun hm => hmem (List.mem_cons_of_mem x hm))
    · -- A x = some a, S x = none
      have h := ih A S A2 S2 hxs hrun e
      constructor
      · intro hmem
        rcases List.mem_cons.mp hmem with he | he
        · subst he
          have h2 := h.2 hx
          simp only [hA, hS] at h2 ⊢
          exact h2
        · exact h.1 he
      · intro hmem
        exact h.2 (fun hm => hmem (List.mem_cons_of_mem x hm))
    · -- A x = some a, S x = some s
      rcases hq : Animator.frameAdvance now a s with _ | q
      · rw [hq] at hrun
        exact Option.noConfusion hrun
      · rw [hq] at hrun
        have h := ih _ _ A2 S2 hxs hrun e
        constructor
        · intro hmem
          rcases List.mem_cons.mp hmem with he | he
          · subst he
            have h2 := h.2 hx
            rw [setStore_same, setStore_same] at h2
            simp only [hA, hS]
            exact ⟨q, hq, h2⟩
          · have hne : e ≠ x := fun hc => hx (hc ▸ he)
            have h1 := h.1 he
            rw [setStore_other _ _ _ _ hne, setStore_other _ _ _ _ hne] at h1
            exact h1
        · intro hmem
          have hne : e ≠ x := fun hc => hmem (hc ▸ List.mem_cons_self x xs)
          have h2 := h.2 (fun hm => hmem (List.mem_cons_of_mem x hm))
          rw [setStore_other _ _ _ _ hne, setStore_other _ _ _ _ hne] at h2
          exact h2

theorem advanceList_isSome (now : Nat) :
    ∀ (es : List Nat) (A : Nat → Option Animation) (S : Nat → Option Sprite),
      es.Nodup →
      (∀ e, e ∈ es → ∀ a s, A e = some a → S e = some s →
        (Animator.frameAdvance now a s).isSome) →
      (Animator.advanceList now es (A, S)).isSome := by
  intro es
  induction es with
  | nil =>
    intro A S _ _
    rw [Animator.advanceList]
    rfl
  | cons x xs ih =>
    intro A S hnd hok
    rcases List.nodup_cons.mp hnd with ⟨hx, hxs⟩
    rw [Animator.advanceList]
    rcases hA : A x with _ | a <;> rcases hS : S x with _ | s <;>
      rw [Animator.advanceStep] <;> simp only [hA, hS]
    · exact ih A S hxs (fun e hm a s h1 h2 => hok e (List.mem_cons_of_mem x hm) a s h1 h2)
    · exact ih A S hxs (fun e hm a s h1 h2 => hok e (List.mem_cons_of_mem x hm) a s h1 h2)
    · exact ih A S hxs (fun e hm a s h1 h2 => hok e (List.mem_cons_of_mem x hm) a s h1 h2)
    · have hsome := hok x (List.mem_cons_self x xs) a s hA hS
      rcases hq : Animator.frameAdvance now a s with _ | q
      · rw [hq] at hsome
        exact absurd hsome (by simp)
      · refine ih _ _ hxs ?_
        intro e hm a2 s2 h1 h2
        have hne : e ≠ x := fun hc => hx (hc ▸ hm)
        rw [setStore_other _ _ _ _ hne] at h1
        rw [setStore_other _ _ _ _ hne] at h2
        exact hok e (List.mem_cons_of_mem x hm) a2 s2 h1 h2

theorem updateAll_eval (w : World) (e : Nat) (hnd : w.entities.Nodup) :
    Animator.updateAll w e =
      if e ∈ w.entities then Animator.updateAnimation w e (w.animations e)
      else w.animations e :=
  pointwiseFold_eval _ _ _ _ hnd

theorem center_from_center (c : Point) (w h : Nat) : (Rect.from_center c w h).center = c := by
  cases c with
  | mk cx cy =>
    simp [Rect.from_center, Rect.center]

/-- C1: evaluation of the Animator at the failing input. The world holds a
single entity with `Velocity { speed := 0 }` and `MovementAnimations` but
no `Animation` component — exactly the state one frame after the Animator
removed the animation of an entity that stopped. After one more Animator
run the entity HAS an `Animation` component again: with `speed == 0` and
no animation present, the first loop of `Animator::run` falls through its
removal guard and inserts the direction template, so the claimed
stationary invariant fails on the code. -/
theorem C1_code_eval :
    (Animator.run 1000 (World.mk [0]
        (fun _ => none) (fun _ => none)
        (fun e => if e = 0 then some { speed := 0, direction := Direction.down } else none)
        (fun _ => none) (fun _ => none) (fun _ => none)
        (fun e => if e = 0 then
            some (MovementAnimations.standard_walking_animations 0 ⟨0, 0, 52, 72⟩ 3 150 0)
          else none))).map (fun w2 => (w2.animations 0).isSome) = some true := by
  rfl

/-- C7 (counterexample): calling `standard_walking_animations` with
`frames_length == 0` does NOT abort at setup; it returns a
`MovementAnimations` value whose templates have empty frame sequences,
contradicting the claim that the error is surfaced immediately and
startup aborted rather than such a value being returned. -/
theorem C7_counterexample :
    (MovementAnimations.standard_walking_animations 0 ⟨0, 0, 52, 72⟩ 0 150 0).walking_down.frames
      = [] := by
  rfl

/-- C7 (amended): a zero frame count is not checked at construction:
`standard_walking_animations` with `frames_length == 0` returns a
`MovementAnimations` whose four templates all have empty frame
sequences, and the configuration error only surfaces later as a fatal
panic, namely the first frame advance the Animator performs on such an
animation indexes an empty vector (modelled as `none`). -/
theorem C7_zero_frames (texture_id : Nat) (top_left_frame : Rect) (step_delay t0 : Nat) :
    (MovementAnimations.standard_walking_animations texture_id top_left_frame 0 step_delay
        t0).walking_up.frames = [] ∧
    (MovementAnimations.standard_walking_animations texture_id top_left_frame 0 step_delay
        t0).walking_down.frames = [] ∧
    (MovementAnimations.standard_walking_animations texture_id top_left_frame 0 step_delay
        t0).walking_left.frames = [] ∧
    (MovementAnimations.standard_walking_animations texture_id top_left_frame 0 step_delay
        t0).walking_right.frames = [] ∧
    ∀ now s, Animator.frameAdvance now
      (MovementAnimations.standard_walking_animations texture_id top_left_frame 0 step_delay
        t0).walking_down s = none := by
  refine ⟨rfl, rfl, rfl, rfl, fun now s => rfl⟩

/-- C4 (counterexample): with current direction Up, the number of draws in
[1,100] that the AI's resolution maps back to Up — i.e. that leave the
direction unchanged — is 70, not 60 as claimed: the 10-draw band 61–70 of
the current direction also leaves it unchanged on top of the 60-draw band
1–60. -/
theorem C4_counterexample :
    ¬ ((List.range 100).countP (fun i => newDirection Direction.up (i + 1) == Direction.up)
        = 60) ∧
    (List.range 100).countP (fun i => newDirection Direction.up (i + 1) == Direction.up)
      = 70 := by
  decide

/-- C4 (amended): for every Enemy whose `direction_change_delay` has
elapsed, the AI draws a uniform integer in [1,100] and resolves the new
direction by the mapping 1–60 unchanged, 61–70 Up, 71–80 Down, 81–90
Left, 91–100 Right, then resets the timer to now; consequently, for
every current direction, exactly 70 of the 100 equally likely draws
leave the direction unchanged (the 60-draw band plus the current
direction's own 10-draw band) and exactly 10 draws select each
non-current direction. -/
theorem C4_draw_distribution :
    (∀ d : Direction,
      (List.range 100).countP (fun i => newDirection d (i + 1) == d) = 70 ∧
      ∀ d2 : Direction, d2 ≠ d →
        (List.range 100).countP (fun i => newDirection d (i + 1) == d2) = 10) ∧
    (∀ (draws : Nat → Nat) (now : Nat) (ens : Nat → Option Enemy)
       (vels : Nat → Option Velocity) (k e : Nat) (en : Enemy) (v : Velocity),
      ens e = some en → vels e = some v →
      en.direction_change_delay ≤ now - en.direction_timer →
      aiStep draws now (ens, vels, k) e =
        (setStore ens e (some { en with direction_timer := now }),
         setStore vels e (some { v with direction := newDirection v.direction (draws k) }),
         k + 1)) := by
  constructor
  · decide
  · intro draws now ens vels k e en v hen hv hel
    simp only [aiStep, hen, hv]
    rw [if_pos hel]

/-- C4 witness: a concrete enemy whose delay (50) has elapsed at instant
100 takes the amended step for draw 65. -/
theorem C4_draw_distribution_witness :
    aiStep (fun _ => 65) 100
      ((fun e => if e = 0 then some ⟨0, 50⟩ else none),
       (fun e => if e = 0 then some ⟨200, Direction.down⟩ else none), 0) 0 =
      (setStore (fun e => if e = 0 then some ⟨0, 50⟩ else none) 0 (some ⟨100, 50⟩),
       setStore (fun e => if e = 0 then some ⟨200, Direction.down⟩ else none) 0
         (some ⟨200, newDirection Direction.down 65⟩),
       1) :=
  C4_draw_distribution.2 (fun _ => 65) 100 _ _ 0 0 ⟨0, 50⟩ ⟨200, Direction.down⟩
    rfl rfl (by decide)

/-- C9: one Keyboard run behaves as a three-case function of the frame's
single optional KeyboardEvent: `MoveInDirection(d)` sets the velocity of
every entity holding both Player and Velocity to the player's
movement_speed and d; `Stop` zeroes every such entity's speed keeping its
direction; an absent event leaves every velocity untouched; and no
storage other than Velocity, and no entity lacking Player or Velocity,
is modified. -/
theorem C9_keyboard_run (ev : Option KeyboardEvent) (w : World) (e : Nat)
    (hnd : w.entities.Nodup) :
    (Keyboard.run ev w).players = w.players ∧
    (Keyboard.run ev w).enemies = w.enemies ∧
    (Keyboard.run ev w).bounding_boxes = w.bounding_boxes ∧
    (Keyboard.run ev w).sprites = w.sprites ∧
    (Keyboard.run ev w).animations = w.animations ∧
    (Keyboard.run ev w).movement_animations = w.movement_animations ∧
    (Keyboard.run ev w).entities = w.entities ∧
    (Keyboard.run ev w).velocities e =
      (if e ∈ w.entities then
        match ev, w.players e, w.velocities e with
        | some (.MoveInDirection d), some p, some _ =>
            some { speed := p.movement_speed, direction := d }
        | some .Stop, some _, some v => some { v with speed := 0 }
        | _, _, _ => w.velocities e
      else w.velocities e) := by
  refine ⟨rfl, rfl, rfl, rfl, rfl, rfl, rfl, ?_⟩
  have h := pointwiseFold_eval (fun e vo => kbApply ev (w.players e) vo)
    w.entities w.velocities e hnd
  rw [show (Keyboard.run ev w).velocities
      = pointwiseFold (fun e vo => kbApply ev (w.players e) vo) w.entities w.velocities
      from rfl, h]
  by_cases hmem : e ∈ w.entities
  · rw [if_pos hmem, if_pos hmem]
    show kbApply ev (w.players e) (w.velocities e) = _
    rcases ev with _ | ev
    · rcases w.players e with _ | p <;> rcases w.velocities e with _ | v <;> rfl
    · rcases ev with d | _ | _ <;>
        rcases w.players e with _ | p <;> rcases w.velocities e with _ | v <;> rfl
  · rw [if_neg hmem, if_neg hmem]

/-- C9 witness: at a concrete world with one player entity, a
MoveInDirection event sets its velocity to the configured speed and the
event's direction. -/
theorem C9_keyboard_run_witness :
    (Keyboard.run (some (KeyboardEvent.MoveInDirection Direction.left))
      (World.mk [0]
        (fun e => if e = 0 then some ⟨200⟩ else none)
        (fun _ => none)
        (fun e => if e = 0 then some ⟨0, Direction.down⟩ else none)
        (fun _ => none) (fun _ => none) (fun _ => none) (fun _ => none))).velocities 0 =
      some { speed := 200, direction := Direction.left } := by
  have h := (C9_keyboard_run (some (KeyboardEvent.MoveInDirection Direction.left))
    (World.mk [0]
      (fun e => if e = 0 then some ⟨200⟩ else none)
      (fun _ => none)
      (fun e => if e = 0 then some ⟨0, Direction.down⟩ else none)
      (fun _ => none) (fun _ => none) (fun _ => none) (fun _ => none))
    0 (by decide)).2.2.2.2.2.2.2
  rw [h]
  rfl

/-- C5: one Movement run changes only the `BoundingBox` storage; an
entity with zero speed keeps its box completely unchanged (it is skipped
by the `continue`); any other entity's box is re-centered at
old center + direction unit vector * (speed * time_delta_microseconds /
1_000_000) with truncating integer division, width and height
preserved. -/
theorem C5_movement_run (time_delta_micros : Nat) (w : World) (e : Nat)
    (v : Velocity) (b : Rect)
    (hnd : w.entities.Nodup) (he : e ∈ w.entities)
    (hv : w.velocities e = some v) (hb : w.bounding_boxes e = some b) :
    ((Movement.run time_delta_micros w).entities = w.entities ∧
     (Movement.run time_delta_micros w).players = w.players ∧
     (Movement.run time_delta_micros w).enemies = w.enemies ∧
     (Movement.run time_delta_micros w).velocities = w.velocities ∧
     (Movement.run time_delta_micros w).sprites = w.sprites ∧
     (Movement.run time_delta_micros w).animations = w.animations ∧
     (Movement.run time_delta_micros w).movement_animations = w.movement_animations) ∧
    (v.speed = 0 → (Movement.run time_delta_micros w).bounding_boxes e = some b) ∧
    (v.speed ≠ 0 → ∃ b2, (Movement.run time_delta_micros w).bounding_boxes e = some b2 ∧
      b2.center = b.center.add
        (v.direction.into_point.scale
          ((v.speed * (time_delta_micros : Int)).tdiv 1000000)) ∧
      b2.w = b.w ∧ b2.h = b.h) := by
  have h := pointwiseFold_eval (fun e bo =>
      match w.velocities e, bo with
      | some v, some b =>
        if v.speed = 0 then some b else some (moveBox time_delta_micros v b)
      | _, _ => bo) w.entities w.bounding_boxes e hnd
  have hrun : (Movement.run time_delta_micros w).bounding_boxes e =
      (if e ∈ w.entities then
        match w.velocities e, w.bounding_boxes e with
        | some v, some b =>
          if v.speed = 0 then some b else some (moveBox time_delta_micros v b)
        | _, _ => w.bounding_boxes e
      else w.bounding_boxes e) := h
  rw [if_pos he, hv, hb] at hrun
  have hrun2 : (Movement.run time_delta_micros w).bounding_boxes e =
      (if v.speed = 0 then some b else some (moveBox time_delta_micros v b)) := hrun
  refine ⟨⟨rfl, rfl, rfl, rfl, rfl, rfl, rfl⟩, ?_, ?_⟩
  · intro hz
    rw [hrun2, if_pos hz]
  · intro hnz
    refine ⟨moveBox time_delta_micros v b, ?_, ?_, rfl, rfl⟩
    · rw [hrun2, if_neg hnz]
    · rw [moveBox]
      exact center_from_center _ _ _

/-- C5 witness: the spec's worked example: speed 200, time delta
16667 microseconds, displacement 200 * 16667 / 1000000 = 3 exactly
(truncating division); a box of width 32, height 58 centered at (26, 49)
moving right is re-centered at (29, 49). -/
theorem C5_movement_run_witness :
    (200 : Int) * (16667 : Int) = 3333400 ∧
    ((200 : Int) * (16667 : Int)).tdiv 1000000 = 3 ∧
    ∃ b2, (Movement.run 16667 (World.mk [0]
        (fun _ => none) (fun _ => none)
        (fun e => if e = 0 then some ⟨200, Direction.right⟩ else none)
        (fun e => if e = 0 then some ⟨10, 20, 32, 58⟩ else none)
        (fun _ => none) (fun _ => none) (fun _ => none))).bounding_boxes 0 = some b2 ∧
      b2.center = (Rect.mk 10 20 32 58).center.add
        (Direction.right.into_point.scale (((200 : Int) * (16667 : Int)).tdiv 1000000)) ∧
      b2.w = 32 ∧ b2.h = 58 := by
  refine ⟨by decide, by decide, ?_⟩
  have h := C5_movement_run 16667 (World.mk [0]
      (fun _ => none) (fun _ => none)
      (fun e => if e = 0 then some ⟨200, Direction.right⟩ else none)
      (fun e => if e = 0 then some ⟨10, 20, 32, 58⟩ else none)
      (fun _ => none) (fun _ => none) (fun _ => none))
    0 ⟨200, Direction.right⟩ ⟨10, 20, 32, 58⟩ (by decide) (by decide) rfl rfl
  exact h.2.2 (by decide)

/-- Movement animations used for the C2 scenario: 2 frames per row, each
lasting 10 time units, constructed at instant 0. -/
def maC2 : MovementAnimations :=
  MovementAnimations.standard_walking_animations 0 ⟨0, 0, 52, 72⟩ 2 10 0

/-- Sprite initially on the C2 entity. -/
def sC2 : Sprite := ⟨5, ⟨0, 0, 1, 1⟩⟩

/-- World for the C2 scenario: one entity with nonzero speed, movement
animations, a sprite and no animation yet. -/
def wC2 : World := World.mk [0]
  (fun _ => none) (fun _ => none)
  (fun e => if e = 0 then some ⟨1, Direction.down⟩ else none)
  (fun _ => none)
  (fun e => if e = 0 then some sC2 else none)
  (fun _ => none)
  (fun e => if e = 0 then some maC2 else none)

/-- The world after one Animator run at instant 100 on `wC2`. -/
def wC2run : World := (Animator.run 100 wC2).getD wC2

/-- C2 (counterexample): entity with nonzero speed and no animation yet;
the templates were built at instant 0 with frame duration 10 and the
Animator runs at instant 100. The claim predicts that within this pass
`current_frame_index` is 0 and the sprite matches frame 0 of the
template. Instead the inserted animation still carries the template's
construction-time frame timer (not reset to now), so the same pass
immediately advances it: `current_frame` ends at 1 and the sprite is
frame 1's sprite. -/
theorem C2_counterexample :
    (Animator.run 100 wC2).map (fun w2 => (w2.animations 0).map Animation.current_frame)
        = some (some 1) ∧
    (Animator.run 100 wC2).map (fun w2 => w2.sprites 0)
        = some (some ⟨0, ⟨52, 0, 52, 72⟩⟩) := by
  exact ⟨rfl, rfl⟩

/-- C2 (amended): for every entity with nonzero speed whose current
Animation's frame sequence differs (by content) from the template for its
current direction — including the no-animation-yet case — one Animator
run replaces the Animation wholesale with a clone of that direction's
template: frame index 0 and frame timer equal to the template's own
construction-time timer, NOT reset to now. Consequently, within the same
pass, if the template's timer has already elapsed at least frame 0's
duration the animation immediately advances to frame 1 (frame timer then
reset to now) and the Sprite becomes frame 1's sprite; only otherwise do
current_frame_index 0 and the old sprite survive the pass. -/
theorem C2_template_replacement
    (w : World) (now e : Nat) (v : Velocity) (ma : MovementAnimations)
    (tpl : Animation) (s : Sprite) (w2 : World)
    (hnd : w.entities.Nodup) (he : e ∈ w.entities)
    (hv : w.velocities e = some v) (hspd : v.speed ≠ 0)
    (hma : w.movement_animations e = some ma)
    (htpl : ma.animation_for v.direction = tpl)
    (hdiff : (w.animations e).map Animation.frames ≠ some tpl.frames)
    (hs : w.sprites e = some s)
    (hrun : Animator.run now w = some w2) :
    ∀ fr, tpl.frames.get? tpl.current_frame = some fr →
      (fr.duration ≤ now - tpl.frame_timer →
        w2.animations e = some { tpl with
          current_frame := (tpl.current_frame + 1) % tpl.frames.length,
          frame_timer := now } ∧
        ∃ fr2, tpl.frames.get? ((tpl.current_frame + 1) % tpl.frames.length) = some fr2 ∧
          w2.sprites e = some fr2.sprite) ∧
      (now - tpl.frame_timer < fr.duration →
        w2.animations e = some tpl ∧ w2.sprites e = some s) := by
  intro fr hfr
  have h1 : Animator.updateAll w e = some tpl := by
    rw [updateAll_eval w e hnd, if_pos he]
    rcases hao : w.animations e with _ | a
    · simp [Animator.updateAnimation, hv, hma, htpl]
    · have hne : a.frames ≠ tpl.frames := by
        intro hEq
        rw [hao] at hdiff
        exact hdiff (by simp [hEq])
      simp [Animator.updateAnimation, hv, hma, htpl, hspd, hne]
  have hadv : ∃ p, Animator.advanceList now w.entities (Animator.updateAll w, w.sprites)
      = some p ∧ w2.animations = p.1 ∧ w2.sprites = p.2 := by
    rcases hA : Animator.advanceList now w.entities (Animator.updateAll w, w.sprites)
      with _ | p
    · simp only [Animator.run, hA] at hrun
      exact Option.noConfusion hrun
    · simp only [Animator.run, hA] at hrun
      have hw2 := Option.some.inj hrun
      exact ⟨p, rfl, by rw [← hw2], by rw [← hw2]⟩
  rcases hadv with ⟨p, hA, hw2a, hw2s⟩
  have hchar := (advanceList_some_eval now w.entities (Animator.updateAll w) w.sprites
    p.1 p.2 hnd hA e).1 he
  rw [h1, hs] at hchar
  rcases hchar with ⟨q, hq, hpa, hps⟩
  have hspec := frameAdvance_spec now tpl s fr hfr
  constructor
  · intro hd
    rcases hspec.1 hd with ⟨fr2, hfr2, heq⟩
    rw [heq] at hq
    have hq2 := Option.some.inj hq
    refine ⟨?_, fr2, hfr2, ?_⟩
    · rw [hw2a, hpa, ← hq2]
    · rw [hw2s, hps, ← hq2]
  · intro hd
    have heq := hspec.2 hd
    rw [heq] at hq
    have hq2 := Option.some.inj hq
    exact ⟨by rw [hw2a, hpa, ← hq2], by rw [hw2s, hps, ← hq2]⟩

/-- C2 witness: the amended theorem applied to the concrete `wC2`
scenario at instant 100 (templates built at instant 0, frame duration
10): the replacement advances within the same pass. -/
theorem C2_template_replacement_witness :
    wC2run.animations 0 = some { maC2.walking_down with
      current_frame := (maC2.walking_down.current_frame + 1) % maC2.walking_down.frames.length,
      frame_timer := 100 } ∧
    ∃ fr2, maC2.walking_down.frames.get?
        ((maC2.walking_down.current_frame + 1) % maC2.walking_down.frames.length) = some fr2 ∧
      wC2run.sprites 0 = some fr2.sprite :=
  (C2_template_replacement wC2 100 0 ⟨1, Direction.down⟩ maC2 maC2.walking_down sC2 wC2run
    (by decide) (by decide) rfl (by decide) rfl rfl (by decide) rfl rfl
    { sprite := ⟨0, ⟨0, 0, 52, 72⟩⟩, duration := 10 } rfl).1 (by decide)

/-- Movement animations (the templates) used for the C3 scenario. -/
def maC3 : MovementAnimations :=
  MovementAnimations.standard_walking_animations 0 ⟨0, 0, 52, 72⟩ 2 10 0

/-- An animation whose frame sequence comes from a second, independent
call of the constructor with identical parameters: in the source this is
a distinct `Arc` whose contents are element-wise equal to the template's
frames. It has already advanced to frame 1 and its timer was reset at
instant 50. -/
def animC3 : Animation :=
  { frames := (MovementAnimations.standard_walking_animations 0 ⟨0, 0, 52, 72⟩ 2 10
      0).walking_down.frames,
    current_frame := 1, frame_timer := 50 }

/-- World for the C3 scenario: one moving entity whose active animation
is structurally identical to, but independently constructed from, the
template for its current direction. -/
def wC3 : World := World.mk [0]
  (fun _ => none) (fun _ => none)
  (fun e => if e = 0 then some ⟨1, Direction.down⟩ else none)
  (fun _ => none)
  (fun e => if e = 0 then some ⟨5, ⟨0, 0, 1, 1⟩⟩ else none)
  (fun e => if e = 0 then some animC3 else none)
  (fun e => if e = 0 then some maC3 else none)

/-- C3 (counterexample): the entity's animation frames are structurally
identical to — but independently constructed from — the current
direction's template. The claim predicts the change test judges them
different and replaces the animation (resetting `current_frame` to 0).
Instead the Animator run at instant 50 leaves the animation completely
unchanged, `current_frame` still 1 and `frame_timer` still 50: the test
is content equality, not reference identity. -/
theorem C3_counterexample :
    (Animator.run 50 wC3).map (fun w2 => w2.animations 0) = some (some animC3) := rfl

/-- C3 (amended): the Animator's did-the-active-animation-change test
compares the entity's current frame sequence to the direction template's
frame sequence by element-wise content equality (Rust `PartialEq` on
`Arc<Vec<Frame>>` compares the inner vectors): for a moving entity with
an animation, the first Animator loop keeps the animation exactly when
the frame contents are equal and replaces it with the template exactly
when they differ. -/
theorem C3_content_equality (w : World) (e : Nat) (v : Velocity) (ma : MovementAnimations)
    (a : Animation)
    (hnd : w.entities.Nodup) (he : e ∈ w.entities)
    (hv : w.velocities e = some v) (hspd : v.speed ≠ 0)
    (hma : w.movement_animations e = some ma)
    (ha : w.animations e = some a) :
    Animator.updateAll w e =
      if a.frames = (ma.animation_for v.direction).frames then some a
      else some (ma.animation_for v.direction) := by
  rw [updateAll_eval w e hnd, if_pos he, ha]
  simp [Animator.updateAnimation, hv, hma, hspd]

/-- C3 witness: the amended theorem applied to the concrete `wC3`
scenario (where the contents are equal, so the animation is kept). -/
theorem C3_content_equality_witness :
    Animator.updateAll wC3 0 =
      if animC3.frames = (maC3.animation_for Direction.down).frames then some animC3
      else some (maC3.animation_for Direction.down) :=
  C3_content_equality wC3 0 ⟨1, Direction.down⟩ maC3 animC3 (by decide) (by decide)
    rfl (by decide) rfl rfl

theorem animator_run_dest (now : Nat) (w w2 : World)
    (hrun : Animator.run now w = some w2) :
    ∃ p, Animator.advanceList now w.entities (Animator.updateAll w, w.sprites) = some p ∧
      w2.animations = p.1 ∧ w2.sprites = p.2 ∧ w2.entities = w.entities ∧
      w2.velocities = w.velocities ∧ w2.bounding_boxes = w.bounding_boxes ∧
      w2.players = w.players ∧ w2.enemies = w.enemies ∧
      w2.movement_animations = w.movement_animations := by
  rcases hA : Animator.advanceList now w.entities (Animator.updateAll w, w.sprites)
    with _ | p
  · simp only [Animator.run, hA] at hrun
    exact Option.noConfusion hrun
  · simp only [Animator.run, hA] at hrun
    have hw2 := Option.some.inj hrun
    exact ⟨p, rfl, by rw [← hw2], by rw [← hw2], by rw [← hw2], by rw [← hw2],
      by rw [← hw2], by rw [← hw2], by rw [← hw2], by rw [← hw2]⟩

/-- C6: for an entity holding both Animation and Sprite (and not subject
to the Animator's first loop, i.e. lacking Velocity or
MovementAnimations, so that the frame-advance machinery acts on the very
animation present at the start of the run), one Animator invocation
advances the animation exactly when the time elapsed since the frame
timer is at least the current frame's configured duration: it then
increments current_frame by one modulo the sequence length, resets the
frame timer to now and overwrites the Sprite with the new frame's
sprite — at most one advance per invocation, even if several durations
elapsed; if the elapsed time is smaller, both the animation and the
sprite are left completely unchanged. -/
theorem C6_frame_advance
    (w : World) (now e : Nat) (a : Animation) (s : Sprite) (w2 : World)
    (hnd : w.entities.Nodup) (he : e ∈ w.entities)
    (hnojoin : w.velocities e = none ∨ w.movement_animations e = none)
    (ha : w.animations e = some a) (hs : w.sprites e = some s)
    (hrun : Animator.run now w = some w2) :
    ∀ fr, a.frames.get? a.current_frame = some fr →
      (fr.duration ≤ now - a.frame_timer →
        w2.animations e = some { a with
          current_frame := (a.current_frame + 1) % a.frames.length,
          frame_timer := now } ∧
        ∃ fr2, a.frames.get? ((a.current_frame + 1) % a.frames.length) = some fr2 ∧
          w2.sprites e = some fr2.sprite) ∧
      (now - a.frame_timer < fr.duration →
        w2.animations e = some a ∧ w2.sprites e = some s) := by
  intro fr hfr
  have h1 : Animator.updateAll w e = some a := by
    rw [updateAll_eval w e hnd, if_pos he]
    rcases hnojoin with hvn | hmn
    · simp [Animator.updateAnimation, hvn, ha]
    · rcases hvv : w.velocities e with _ | v <;>
        simp [Animator.updateAnimation, hvv, hmn, ha]
  rcases animator_run_dest now w w2 hrun with ⟨p, hA, hw2a, hw2s, _⟩
  have hchar := (advanceList_some_eval now w.entities (Animator.updateAll w) w.sprites
    p.1 p.2 hnd hA e).1 he
  rw [h1, hs] at hchar
  rcases hchar with ⟨q, hq, hpa, hps⟩
  have hspec := frameAdvance_spec now a s fr hfr
  constructor
  · intro hd
    rcases hspec.1 hd with ⟨fr2, hfr2, heq⟩
    rw [heq] at hq
    have hq2 := Option.some.inj hq
    refine ⟨?_, fr2, hfr2, ?_⟩
    · rw [hw2a, hpa, ← hq2]
    · rw [hw2s, hps, ← hq2]
  · intro hd
    have heq := hspec.2 hd
    rw [heq] at hq
    have hq2 := Option.some.inj hq
    exact ⟨by rw [hw2a, hpa, ← hq2], by rw [hw2s, hps, ← hq2]⟩

/-- Animation used for the C6 scenario: two frames of duration 10, timer
last reset at instant 0, currently at frame 0. -/
def aC6 : Animation :=
  { frames := [{ sprite := ⟨1, ⟨0, 0, 2, 2⟩⟩, duration := 10 },
               { sprite := ⟨1, ⟨2, 0, 2, 2⟩⟩, duration := 10 }],
    current_frame := 0, frame_timer := 0 }

/-- Sprite initially on the C6 entity. -/
def sC6 : Sprite := ⟨9, ⟨0, 0, 3, 3⟩⟩

/-- World for the C6 scenario: one entity holding only Animation and
Sprite. -/
def wC6 : World := World.mk [0]
  (fun _ => none) (fun _ => none) (fun _ => none) (fun _ => none)
  (fun e => if e = 0 then some sC6 else none)
  (fun e => if e = 0 then some aC6 else none)
  (fun _ => none)

/-- The world after one Animator run at instant 50 on `wC6`. -/
def wC6run : World := (Animator.run 50 wC6).getD wC6

/-- C6 witness: at instant 50, five frame durations have elapsed since
the timer reset at instant 0, yet exactly one advance happens: frame 0
becomes frame 1, the timer resets to 50 and the sprite becomes frame 1's
sprite. -/
theorem C6_frame_advance_witness :
    wC6run.animations 0 = some { aC6 with
      current_frame := (aC6.current_frame + 1) % aC6.frames.length,
      frame_timer := 50 } ∧
    ∃ fr2, aC6.frames.get? ((aC6.current_frame + 1) % aC6.frames.length) = some fr2 ∧
      wC6run.sprites 0 = some fr2.sprite :=
  (C6_frame_advance wC6 50 0 aC6 sC6 wC6run (by decide) (by decide) (Or.inl rfl)
    rfl rfl rfl { sprite := ⟨1, ⟨0, 0, 2, 2⟩⟩, duration := 10 } rfl).1 (by decide)

theorem frameAdvance_preserves (now : Nat) (a : Animation) (s : Sprite)
    (q : Animation × Sprite)
    (h : Animator.frameAdvance now a s = some q)
    (hcf : a.current_frame < a.frames.length) :
    q.1.current_frame < q.1.frames.length := by
  rcases hfr : a.frames.get? a.current_frame with _ | fr
  · exact absurd (List.get?_eq_none.mp hfr) (by omega)
  · have hlen : 0 < a.frames.length := Nat.lt_of_le_of_lt (Nat.zero_le _) hcf
    have hspec := frameAdvance_spec now a s fr hfr
    by_cases hd : fr.duration ≤ now - a.frame_timer
    · rcases hspec.1 hd with ⟨fr2, _, heq⟩
      rw [heq] at h
      have hq := Option.some.inj h
      rw [← hq]
      exact Nat.mod_lt _ hlen
    · have heq := hspec.2 (Nat.not_le.mp hd)
      rw [heq] at h
      have hq := Option.some.inj h
      rw [← hq]
      exact hcf

/-- World for the C10 counterexample: one moving entity with a sprite,
no Animation component, and a MovementAnimations table built with a zero
frame count, so its templates have empty frame sequences. -/
def wC10 : World := World.mk [0]
  (fun _ => none) (fun _ => none)
  (fun e => if e = 0 then some ⟨1, Direction.down⟩ else none)
  (fun _ => none)
  (fun e => if e = 0 then some ⟨5, ⟨0, 0, 1, 1⟩⟩ else none)
  (fun _ => none)
  (fun e => if e = 0 then
      some (MovementAnimations.standard_walking_animations 0 ⟨0, 0, 52, 72⟩ 0 10 0)
    else none)

/-- C10 (counterexample): a world whose Animation store vacuously
satisfies the claimed precondition (it holds no Animation at all), yet
one Animator run performs an out-of-range frame-sequence access: the
first loop inserts the empty-framed direction template, and the second
loop's indexing of that empty sequence is the modelled panic (`none`).
The claimed precondition over the Animation store alone does not cover
the templates inside MovementAnimations components. -/
theorem C10_counterexample :
    (∀ e a, wC10.animations e = some a →
      a.frames ≠ [] ∧ a.current_frame < a.frames.length) ∧
    Animator.run 100 wC10 = none := by
  refine ⟨fun e a h => Option.noConfusion h, rfl⟩

/-- C10 (amended): if, at the start of an Animator run, every Animation
component in the store AND every direction template inside every
MovementAnimations component satisfies current_frame < frames.length
(hence has a nonempty frame sequence), then no frame-sequence access of
the run is out of range — the run completes without the modelled panic —
and every Animation present after the run satisfies
current_frame < frames.length again: freshly inserted animations are
clones of templates and advancement is taken modulo the sequence
length. -/
theorem C10_animator_safety (w : World) (now : Nat)
    (hnd : w.entities.Nodup)
    (hstore : ∀ e a, w.animations e = some a → a.current_frame < a.frames.length)
    (htpl : ∀ e ma, w.movement_animations e = some ma →
      ∀ d : Direction, (ma.animation_for d).current_frame < (ma.animation_for d).frames.length) :
    ∃ w2, Animator.run now w = some w2 ∧
      ∀ e a, w2.animations e = some a → a.current_frame < a.frames.length := by
  have hmid : ∀ e a, Animator.updateAll w e = some a →
      a.current_frame < a.frames.length := by
    intro e a h
    rw [updateAll_eval w e hnd] at h
    by_cases hmem : e ∈ w.entities
    · rw [if_pos hmem] at h
      rcases hvv : w.velocities e with _ | v <;>
        rcases hmm : w.movement_animations e with _ | ma <;>
        rw [Animator.updateAnimation] at h <;> simp only [hvv, hmm] at h
      · exact hstore e a h
      · exact hstore e a h
      · exact hstore e a h
      · by_cases hc : v.speed = 0 ∧ (w.animations e).isSome
        · rw [if_pos hc] at h
          exact Option.noConfusion h
        · rw [if_neg hc] at h
          rcases hao : w.animations e with _ | a0 <;> simp only [hao] at h
          · have := Option.some.inj h
            rw [← this]
            exact htpl e ma hmm v.direction
          · by_cases heq : a0.frames = (ma.animation_for v.direction).frames
            · rw [if_pos heq] at h
              exact hstore e a (hao.trans h)
            · rw [if_neg heq] at h
              have := Option.some.inj h
              rw [← this]
              exact htpl e ma hmm v.direction
    · rw [if_neg hmem] at h
      exact hstore e a h
  have hok : (Animator.advanceList now w.entities (Animator.updateAll w, w.sprites)).isSome := by
    refine advanceList_isSome now w.entities (Animator.updateAll w) w.sprites hnd ?_
    intro e _ a s hae _
    exact frameAdvance_isSome now a s (hmid e a hae)
  rcases hA : Animator.advanceList now w.entities (Animator.updateAll w, w.sprites)
    with _ | p
  · rw [hA] at hok
    exact absurd hok (by simp)
  · refine ⟨{ w with animations := p.1, sprites := p.2 }, by rw [Animator.run, hA], ?_⟩
    intro e a h
    have hh : p.1 e = some a := h
    have hchar := advanceList_some_eval now w.entities (Animator.updateAll w) w.sprites
      p.1 p.2 hnd hA e
    by_cases hmem : e ∈ w.entities
    · have h1 := hchar.1 hmem
      rcases hae : Animator.updateAll w e with _ | a0 <;>
        rcases hse : w.sprites e with _ | s0 <;> rw [hae, hse] at h1
      · rw [h1.1] at hh
        exact Option.noConfusion hh
      · rw [h1.1] at hh
        exact Option.noConfusion hh
      · rw [h1.1] at hh
        have := Option.some.inj hh
        rw [← this]
        exact hmid e a0 hae
      · rcases h1 with ⟨q, hq, hpa, _⟩
        rw [hpa] at hh
        have hqa := Option.some.inj hh
        rw [← hqa]
        exact frameAdvance_preserves now a0 s0 q hq (hmid e a0 hae)
    · have h2 := hchar.2 hmem
      rw [h2.1] at hh
      exact hmid e a hh

/-- World for the C10 witness: one moving entity with a sprite, no
animation yet, and well-formed 2-frame templates. -/
def wC10b : World := World.mk [0]
  (fun _ => none) (fun _ => none)
  (fun e => if e = 0 then some ⟨1, Direction.down⟩ else none)
  (fun _ => none)
  (fun e => if e = 0 then some ⟨5, ⟨0, 0, 1, 1⟩⟩ else none)
  (fun _ => none)
  (fun e => if e = 0 then
      some (MovementAnimations.standard_walking_animations 0 ⟨0, 0, 52, 72⟩ 2 10 0)
    else none)

/-- C10 witness: the amended safety theorem applied to the concrete
world `wC10b`, whose templates are well formed. -/
theorem C10_animator_safety_witness :
    ∃ w2, Animator.run 100 wC10b = some w2 ∧
      ∀ e a, w2.animations e = some a → a.current_frame < a.frames.length := by
  refine C10_animator_safety wC10b 100 (by decide) (fun e a h => Option.noConfusion h) ?_
  intro e ma h d
  by_cases he : e = 0
  · subst he
    have h2 : some (MovementAnimations.standard_walking_animations 0 ⟨0, 0, 52, 72⟩ 2 10 0)
        = some ma := h
    have h3 := Option.some.inj h2
    rw [← h3]
    revert d
    decide
  · have h2 : (none : Option MovementAnimations) = some ma := by
      rw [← h]
      simp [wC10b, he]
    exact Option.noConfusion h2

theorem kbApply_none (ev : Option KeyboardEvent) (po : Option Player) :
    kbApply ev po none = none := by
  cases po <;> rfl

theorem kbApply_no_player (ev : Option KeyboardEvent) (vo : Option Velocity) :
    kbApply ev none vo = vo := by
  cases vo <;> rfl

theorem ai_fold_relate (draws : Nat → Nat) (now : Nat)
    (players : Nat → Option Player) (ev : Option KeyboardEvent)
    (es0 : List Nat) (base_enemies : Nat → Option Enemy)
    (hdisj : ∀ x, players x = none ∨ base_enemies x = none) :
    ∀ (L : List Nat) (ensA : Nat → Option Enemy)
      (velsA velsB : Nat → Option Velocity) (k : Nat),
      (∀ x, (ensA x).isSome → (base_enemies x).isSome) →
      (∀ x, velsB x = if x ∈ es0 then kbApply ev (players x) (velsA x) else velsA x) →
      (L.foldl (aiStep draws now) (ensA, velsB, k)).1
          = (L.foldl (aiStep draws now) (ensA, velsA, k)).1 ∧
      (L.foldl (aiStep draws now) (ensA, velsB, k)).2.2
          = (L.foldl (aiStep draws now) (ensA, velsA, k)).2.2 ∧
      (∀ x, ((L.foldl (aiStep draws now) (ensA, velsA, k)).1 x).isSome →
        (base_enemies x).isSome) ∧
      (∀ x, (L.foldl (aiStep draws now) (ensA, velsB, k)).2.1 x =
        if x ∈ es0 then
          kbApply ev (players x) ((L.foldl (aiStep draws now) (ensA, velsA, k)).2.1 x)
        else (L.foldl (aiStep draws now) (ensA, velsA, k)).2.1 x) := by
  intro L
  induction L with
  | nil =>
    intro ensA velsA velsB k hpres hR
    exact ⟨rfl, rfl, hpres, hR⟩
  | cons x L ih =>
    intro ensA velsA velsB k hpres hR
    rw [List.foldl_cons, List.foldl_cons]
    rcases hen : ensA x with _ | en
    · have hsA : aiStep draws now (ensA, velsA, k) x = (ensA, velsA, k) := by
        simp [aiStep, hen]
      have hsB : aiStep draws now (ensA, velsB, k) x = (ensA, velsB, k) := by
        simp [aiStep, hen]
      rw [hsA, hsB]
      exact ih ensA velsA velsB k hpres hR
    · have hbase : (base_enemies x).isSome := hpres x (by rw [hen]; rfl)
      have hpx : players x = none := by
        rcases hdisj x with h | h
        · exact h
        · rw [h] at hbase
          exact absurd hbase (by simp)
      rcases hvA : velsA x with _ | vA
      · have hvB : velsB x = none := by
          rw [hR x]
          by_cases hmem : x ∈ es0
          · rw [if_pos hmem, hvA, kbApply_none]
          · rw [if_neg hmem, hvA]
        have hsA : aiStep draws now (ensA, velsA, k) x = (ensA, velsA, k) := by
          simp [aiStep, hen, hvA]
        have hsB : aiStep draws now (ensA, velsB, k) x = (ensA, velsB, k) := by
          simp [aiStep, hen, hvB]
        rw [hsA, hsB]
        exact ih ensA velsA velsB k hpres hR
      · have hvB : velsB x = some vA := by
          rw [hR x, hpx]
          by_cases hmem : x ∈ es0
          · rw [if_pos hmem, hvA, kbApply_no_player]
          · rw [if_neg hmem, hvA]
        by_cases hel : en.direction_change_delay ≤ now - en.direction_timer
        · have hsA : aiStep draws now (ensA, velsA, k) x =
              (setStore ensA x (some { en with direction_timer := now }),
               setStore velsA x
                 (some { vA with direction := newDirection vA.direction (draws k) }),
               k + 1) := by
            simp [aiStep, hen, hvA, hel]
          have hsB : aiStep draws now (ensA, velsB, k) x =
              (setStore ensA x (some { en with direction_timer := now }),
               setStore velsB x
                 (some { vA with direction := newDirection vA.direction (draws k) }),
               k + 1) := by
            simp [aiStep, hen, hvB, hel]
          rw [hsA, hsB]
          refine ih _ _ _ (k + 1) ?_ ?_
          · intro y hy
            by_cases hyx : y = x
            · subst hyx
              exact hbase
            · rw [setStore_other _ _ _ _ hyx] at hy
              exact hpres y hy
          · intro y
            by_cases hyx : y = x
            · subst hyx
              rw [setStore_same, setStore_same, hpx]
              by_cases hmem : y ∈ es0
              · rw [if_pos hmem, kbApply_no_player]
              · rw [if_neg hmem]
            · rw [setStore_other _ _ _ _ hyx, setStore_other _ _ _ _ hyx]
              exact hR y
        · have hsA : aiStep draws now (ensA, velsA, k) x = (ensA, velsA, k) := by
            simp [aiStep, hen, hvA, hel]
          have hsB : aiStep draws now (ensA, velsB, k) x = (ensA, velsB, k) := by
            simp [aiStep, hen, hvB, hel]
          rw [hsA, hsB]
          exact ih ensA velsA velsB k hpres hR

attribute [ext] World

theorem keyboard_ai_comm (ev : Option KeyboardEvent) (draws : Nat → Nat) (now : Nat)
    (w : World) (hnd : w.entities.Nodup)
    (hdisj : ∀ x, w.players x = none ∨ w.enemies x = none) :
    Keyboard.run ev (AI.run draws now w) = AI.run draws now (Keyboard.run ev w) := by
  have hrel := ai_fold_relate draws now w.players ev w.entities w.enemies hdisj
    w.entities w.enemies w.velocities (Keyboard.run ev w).velocities 0
    (fun x h => h)
    (fun x => pointwiseFold_eval (fun e vo => kbApply ev (w.players e) vo)
      w.entities w.velocities x hnd)
  rcases hrel with ⟨hens, _, _, hvels⟩
  refine World.ext rfl rfl ?_ ?_ rfl rfl rfl rfl
  · exact hens.symm
  · funext x
    have hL : (Keyboard.run ev (AI.run draws now w)).velocities x =
        pointwiseFold (fun e vo => kbApply ev (w.players e) vo) w.entities
          ((w.entities.foldl (aiStep draws now) (w.enemies, w.velocities, 0)).2.1) x := rfl
    rw [hL, pointwiseFold_eval _ _ _ x hnd]
    exact (hvels x).symm

theorem movement_animator_comm (time_delta_micros now : Nat) (w : World) :
    Animator.run now (Movement.run time_delta_micros w)
      = Option.map (Movement.run time_delta_micros) (Animator.run now w) := by
  have hscr : Animator.advanceList now (Movement.run time_delta_micros w).entities
      (Animator.updateAll (Movement.run time_delta_micros w),
       (Movement.run time_delta_micros w).sprites)
      = Animator.advanceList now w.entities (Animator.updateAll w, w.sprites) := rfl
  rw [Animator.run, Animator.run, hscr]
  rcases hA : Animator.advanceList now w.entities (Animator.updateAll w, w.sprites)
    with _ | p
  · rfl
  · rfl

theorem respects_mem_validOrders :
    ∀ a b c d : Sys, respectsEdges [a, b, c, d] = true → [a, b, c, d] ∈ validOrders := by
  decide

theorem respects_length (o : List Sys) (ho : respectsEdges o = true) : o.length = 4 := by
  rw [respectsEdges] at ho
  simp only [Bool.and_eq_true, beq_iff_eq] at ho
  exact ho.1.1.1.1.1.1.1.1

/-- C8: for a fixed keyboard event, random-draw stream, instant and time
delta, and a world in which no entity is both a Player and an Enemy (as
in every world the game builds: the player entity and the enemy entities
are distinct), every execution order of the four systems that respects
the declared dependency edges (Keyboard and AI before Movement; Keyboard
and AI before Animator) produces a final world identical to the
canonical sequential order Keyboard, AI, Movement, Animator; in
particular the Keyboard and AI steps commute, as do the Movement and
Animator steps. -/
theorem C8_scheduler_order (ev : Option KeyboardEvent) (draws : Nat → Nat)
    (now time_delta_micros : Nat) (w : World)
    (hnd : w.entities.Nodup)
    (hdisj : ∀ x, w.players x = none ∨ w.enemies x = none)
    (o : List Sys) (ho : respectsEdges o = true) :
    runSeq ev draws now time_delta_micros o w
      = runSeq ev draws now time_delta_micros canonicalOrder w := by
  have hlen := respects_length o ho
  rcases o with _ | ⟨a, _ | ⟨b, _ | ⟨c, _ | ⟨d, _ | ⟨e, tl⟩⟩⟩⟩⟩ <;> simp at hlen
  have hmem := respects_mem_validOrders a b c d ho
  have hcomm := keyboard_ai_comm ev draws now w hnd hdisj
  simp only [validOrders, List.mem_cons, List.not_mem_nil, or_false] at hmem
  rcases hmem with h | h | h | h <;>
    obtain ⟨rfl, rfl, rfl, rfl⟩ : _ ∧ _ ∧ _ ∧ _ := by
      injection h with h1 h; injection h with h2 h; injection h with h3 h
      injection h with h4 h
      exact ⟨h1, h2, h3, h4⟩
  · rfl
  · simp only [runSeq, applySys, canonicalOrder]
    rw [hcomm]
  · simp only [runSeq, applySys, canonicalOrder]
    rw [movement_animator_comm]
    rcases hAn : Animator.run now (AI.run draws now (Keyboard.run ev w)) with _ | w3
    · rfl
    · rfl
  · simp only [runSeq, applySys, canonicalOrder]
    rw [hcomm, movement_animator_comm]
    rcases hAn : Animator.run now (AI.run draws now (Keyboard.run ev w)) with _ | w3
    · rfl
    · rfl

/-- C8 witness: a concrete admissible non-canonical order (AI, Keyboard,
Animator, Movement) on a concrete world agrees with the canonical
order. -/
theorem C8_scheduler_order_witness :
    runSeq none (fun _ => 1) 0 16666
        [Sys.ai, Sys.keyboard, Sys.animator, Sys.movement]
        (World.mk [] (fun _ => none) (fun _ => none) (fun _ => none) (fun _ => none)
          (fun _ => none) (fun _ => none) (fun _ => none))
      = runSeq none (fun _ => 1) 0 16666 canonicalOrder
        (World.mk [] (fun _ => none) (fun _ => none) (fun _ => none) (fun _ => none)
          (fun _ => none) (fun _ => none) (fun _ => none)) :=
  C8_scheduler_order none (fun _ => 1) 0 16666 _ (by decide) (fun _ => Or.inl rfl)
    [Sys.ai, Sys.keyboard, Sys.animator, Sys.movement] (by decide)
